import Mathlib

/-!
Verification of the stock-check Lambda in `src/handler.ts`.

The handler is shallowly embedded as pure Lean functions.  Impure
collaborators are modelled as explicit inputs:

* the HTTP fetch is an input of type `FetchResult` (either a completed
  response carrying `ok`/`status`/`statusText`/body text, or a thrown
  exception carrying its extracted message and abort flag);
* the cheerio DOM query `load(html)` followed by `$("#add")` is an input
  `parse : String → Option Element`, where `Element` carries exactly the
  observations the handler makes on the selection (its `.text()`, its
  attributes, and whether it matches the `:disabled` pseudo-selector);
* the SES e-mail collaborator is modelled by a boolean input saying whether
  a send attempt succeeds, and the handler output is paired with the list
  of e-mail attempts it makes (identified by subject line).

JavaScript string primitives used by the handler (`String.prototype.trim`,
`String.prototype.includes`, `toLowerCase` on the ASCII data at hand, and
the two regex literals `/add\s*to\s*cart/i` and
`/^[^\s@]+@[^\s@]+\.[^\s@]+$/`) are embedded on `List Char` below.
-/

namespace StockCheck

/-- The set of characters matched by `\s` in a JavaScript regex, which is
also the set stripped by `String.prototype.trim`. -/
def jsWsChars : List Char :=
  ['\t', '\n', '\u000B', '\u000C', '\r', ' ', '\u00A0', '\u1680',
   '\u2000', '\u2001', '\u2002', '\u2003', '\u2004', '\u2005', '\u2006',
   '\u2007', '\u2008', '\u2009', '\u200A', '\u2028', '\u2029', '\u202F',
   '\u205F', '\u3000', '\uFEFF']

/-- JavaScript whitespace test (`\s`). -/
def jsWs (c : Char) : Bool := decide (c ∈ jsWsChars)

/-- JavaScript `String.prototype.trim`: strip leading and trailing
whitespace. -/
def jsTrim (s : String) : String :=
  String.mk (((s.data.dropWhile jsWs).reverse.dropWhile jsWs).reverse)

/-- JavaScript `String.prototype.includes` (used here via
`classStr.includes(c)` in `isElementLocked`): substring containment. -/
def strContains (s pat : String) : Bool :=
  decide (pat.data <:+: s.data)

/-- JavaScript `String.prototype.toLowerCase`, restricted to the ASCII
case folding that the handler data exercises. -/
def jsToLower (s : String) : String := String.mk (s.data.map Char.toLower)

/-- Model of the cheerio selection `$("#add")` when it is non-empty: the
observations `handler.ts` makes on it.  `textRaw` is `el.text()`, `attrs`
the attribute list read by `el.attr(name)` (first binding wins), and
`disabledPseudo` the result of `el.is(":disabled")`. -/
structure Element where
  textRaw : String
  attrs : List (String × String)
  disabledPseudo : Bool
deriving DecidableEq

/-- `el.attr(name)`: the attribute value, or `undefined` (`none`) when the
attribute is absent. -/
def Element.attr (e : Element) (name : String) : Option String :=
  (e.attrs.find? (fun p => p.1 == name)).map (fun p => p.2)

/-- `isElementLocked` from `handler.ts` lines 80–91.  The cheerio selection
is `none` when empty (`el.length === 0`). -/
def isElementLocked (el : Option Element) : Bool :=
  match el with
  | none => true
  | some e =>
    let hasDisabledAttr := e.disabledPseudo || (e.attr "disabled").isSome
    let ariaDisabled := jsToLower ((e.attr "aria-disabled").getD "") == "true"
    let classStr := jsToLower ((e.attr "class").getD "")
    let classIndicatesLocked :=
      ["disabled", "soldout", "locked", "unavailable"].any
        (fun c => strContains classStr c)
    let dataLocked := jsToLower ((e.attr "data-locked").getD "") == "true"
    hasDisabledAttr || ariaDisabled || classIndicatesLocked || dataLocked

/-! ## The regex `/add\s*to\s*cart/i`

`regex.test(text)` searches for a match anywhere in `text`.  Because the
letters of the literal parts are never whitespace, the greedy `\s*` needs
no backtracking, so the matcher below consumes each literal part
case-insensitively and then the maximal whitespace run. -/

/-- Consume `pat` (given in lowercase) case-insensitively from the front of
`cs`; return the remainder on success. -/
def stripCI : List Char → List Char → Option (List Char)
  | [], cs => some cs
  | _ :: _, [] => none
  | p :: ps, c :: cs => if c.toLower = p then stripCI ps cs else none

/-- Consume the maximal leading whitespace run (`\s*`, greedy). -/
def dropWs : List Char → List Char
  | [] => []
  | c :: cs => if jsWs c then dropWs cs else c :: cs

/-- Does a match of `add\s*to\s*cart` (case-insensitive) start at the head
of `cs`? -/
def matchAddToCartHere (cs : List Char) : Bool :=
  match stripCI ['a', 'd', 'd'] cs with
  | none => false
  | some r1 =>
    match stripCI ['t', 'o'] (dropWs r1) with
    | none => false
    | some r2 => (stripCI ['c', 'a', 'r', 't'] (dropWs r2)).isSome

/-- `/add\s*to\s*cart/i.test(s)`: a match starts at some position. -/
def regexTestAddToCart (s : String) : Bool :=
  s.data.tails.any matchAddToCartHere

/-- `CheckResult` from `handler.ts` lines 65–70. -/
structure CheckResult where
  «exists» : Bool
  text : String
  saysAddToCart : Bool
  locked : Bool
deriving DecidableEq

/-- The availability evaluator, `handler.ts` lines 170–177: given the
result of `$("#add")` on the fetched markup, compute the `CheckResult`. -/
def evaluate (el : Option Element) : CheckResult :=
  let ex := el.isSome
  let text := match el with
    | some e => jsTrim e.textRaw
    | none => ""
  let saysAddToCart := regexTestAddToCart text
  let locked := isElementLocked el
  { «exists» := ex, text := text, saysAddToCart := saysAddToCart,
    locked := locked }

/-! ## Configuration loading (`validateEnvironment`, `handler.ts` lines 12–48) -/

/-- `ValidatedConfig` from `handler.ts` lines 5–10. -/
structure ValidatedConfig where
  region : String
  targetUrl : String
  toEmail : String
  fromEmail : String
deriving DecidableEq

/-- The five environment variables the loader reads; `none` models an unset
variable. -/
structure Env where
  AWS_REGION : Option String
  AWS_DEFAULT_REGION : Option String
  TARGET_URL : Option String
  TO_EMAIL : Option String
  FROM_EMAIL : Option String
deriving DecidableEq

/-- JavaScript falsiness of a `string | undefined` value (`!x`, and the
`x || y` chain): `undefined` and the empty string are falsy. -/
def envFalsy : Option String → Bool
  | none => true
  | some s => s.isEmpty

/-- `process.env.AWS_REGION || process.env.AWS_DEFAULT_REGION || "us-east-1"`
(`handler.ts` line 13). -/
def regionOf (env : Env) : String :=
  if !envFalsy env.AWS_REGION then env.AWS_REGION.getD ""
  else if !envFalsy env.AWS_DEFAULT_REGION then env.AWS_DEFAULT_REGION.getD ""
  else "us-east-1"

/-- A character matched by `[^\s@]` in the e-mail regex. -/
def atomChar (c : Char) : Bool := !jsWs c && c != '@'

/-- `/^[^\s@]+@[^\s@]+\.[^\s@]+$/.test(s)` (`handler.ts` line 34).

Because `[^\s@]` never matches `@`, the first `[^\s@]+` must stop exactly at
the first `@` of the string, and everything after that `@` must consist of
`[^\s@]` characters with at least one literal `.` that is neither the first
nor the last of them. -/
def splitAtFirstAt : List Char → Option (List Char × List Char)
  | [] => none
  | c :: cs =>
    if c = '@' then some ([], cs)
    else
      match splitAtFirstAt cs with
      | none => none
      | some (l, r) => some (c :: l, r)

def emailRegexTest (s : String) : Bool :=
  match splitAtFirstAt s.data with
  | none => false
  | some (lpart, rest) =>
    !lpart.isEmpty && lpart.all atomChar && rest.all atomChar &&
      ((rest.drop 1).dropLast.contains '.')

/-- `validateEnvironment` from `handler.ts` lines 12–48.  Thrown `Error`
messages become `Except.error`; `new URL(targetUrl)` succeeding is modelled
by the collaborator `isValidUrl`. -/
def validateEnvironment (isValidUrl : String → Bool) (env : Env) :
    Except String ValidatedConfig :=
  let region := regionOf env
  if envFalsy env.TARGET_URL then
    .error "TARGET_URL environment variable is required"
  else if envFalsy env.TO_EMAIL || envFalsy env.FROM_EMAIL then
    .error "TO_EMAIL and FROM_EMAIL environment variables are required"
  else if !isValidUrl (env.TARGET_URL.getD "") then
    .error "TARGET_URL must be a valid URL"
  else if !emailRegexTest (env.TO_EMAIL.getD "") then
    .error "TO_EMAIL must be a valid email address"
  else if !emailRegexTest (env.FROM_EMAIL.getD "") then
    .error "FROM_EMAIL must be a valid email address"
  else
    .ok { region := region, targetUrl := env.TARGET_URL.getD "",
          toEmail := env.TO_EMAIL.getD "", fromEmail := env.FROM_EMAIL.getD "" }

/-! ## The handler (`handler.ts` lines 113–282) -/

/-- Outcome of `fetch(config.targetUrl, ...)`: either the promise resolved
to a response (whose `ok`, `status`, `statusText` and body text the handler
reads), or it threw — `message` is the text the catch block extracts
(`err.message`, or `String(err)` for non-`Error` values) and `isAbort` is
`err.name === "AbortError"` (a 25-second timeout abort). -/
inductive FetchResult where
  | completed (respOk : Bool) (status : Nat) (statusText : String)
      (body : String)
  | thrown (message : String) (isAbort : Bool)
deriving DecidableEq

/-- The `HandlerResponse` union from `handler.ts` lines 72–78:
`HandlerSuccess`, `HandlerFetchFail` and `HandlerError`. -/
inductive HandlerResponse where
  | success (notified : Bool) (result : CheckResult)
  | fetchFail (message : String)
  | runtimeFail (error : String)
deriving DecidableEq

/-- One call of `sendEmail(subject, body)`, identified by its subject line.
(The bodies interpolate wall-clock timestamps and are not modelled.) -/
structure EmailAttempt where
  subject : String
deriving DecidableEq

/-- Subject of the stock-available notification (`handler.ts` line 188). -/
def stockSubject : String := "üéâ Item In Stock Alert - Add to Cart Available!"

/-- Subject of the server-error notification (`handler.ts` line 148). -/
def serverErrorSubject : String := "Stock check: Server error detected"

/-- Subject of the catch-path notification for a timeout abort
(`handler.ts` line 244). -/
def timeoutSubject : String := "Stock check timeout"

/-- Subject of the catch-path notification for any other exception
(`handler.ts` line 244). -/
def systemErrorSubject : String := "Stock check system error"

/-- The non-success fetch message (`handler.ts` line 141). -/
def httpFailMessage (status : Nat) (statusText targetUrl : String) : String :=
  "HTTP " ++ toString status ++ " " ++ statusText ++ " when fetching " ++
    targetUrl

/-- The empty-body fetch message (`handler.ts` line 165). -/
def emptyBodyMessage : String := "Received empty response from target URL"

/-- The handler, `handler.ts` lines 113–282, as a function of its impure
collaborators: the parse collaborator (`load` + `$("#add")`), the fetch
outcome, and whether an SES send attempt succeeds.  Returns the
`HandlerResponse` together with the e-mail attempts made.  (The
`!html || html.trim().length === 0` test is `(jsTrim body).isEmpty`, since
the empty string also trims to length 0.) -/
def handler (cfg : ValidatedConfig) (parse : String → Option Element)
    (fetchResult : FetchResult) (emailSendSucceeds : Bool) :
    HandlerResponse × List EmailAttempt :=
  match fetchResult with
  | .thrown message isAbort =>
    -- catch block: best-effort error e-mail, failure swallowed
    (.runtimeFail message,
     [⟨if isAbort then timeoutSubject else systemErrorSubject⟩])
  | .completed respOk status statusText body =>
    if !respOk then
      let msg := httpFailMessage status statusText cfg.targetUrl
      if status ≥ 500 then
        -- error e-mail attempted; its failure is caught and only logged
        (.fetchFail msg, [⟨serverErrorSubject⟩])
      else
        (.fetchFail msg, [])
    else if (jsTrim body).isEmpty then
      (.fetchFail emptyBodyMessage, [])
    else
      let result := evaluate (parse body)
      if result.«exists» && result.saysAddToCart && !result.locked then
        if emailSendSucceeds then
          (.success true result, [⟨stockSubject⟩])
        else
          -- sendEmail threw: still a success, but notified = false
          (.success false result, [⟨stockSubject⟩])
      else
        (.success false result, [])

/-! ## Spec-side predicates

These restate, in propositional form, what the specification says the
computed flags mean.  The claim theorems below compare them with the
embedded code. -/

/-- The CheckResult carried by a Success response, if any. -/
def resultOf : HandlerResponse → Option CheckResult
  | .success _ r => some r
  | .fetchFail _ => none
  | .runtimeFail _ => none

/-- Spec reading of the `locked` flag: the element is absent, or a
disabled attribute/pseudo-state is present, or `aria-disabled` equals
"true" case-insensitively, or the class attribute contains one of the four
lock words as a case-insensitive substring, or `data-locked` equals "true"
case-insensitively. -/
def lockedSpec (el : Option Element) : Prop :=
  el = none ∨
  ∃ e, el = some e ∧
    (e.disabledPseudo = true ∨
     (∃ v, e.attr "disabled" = some v) ∨
     (∃ v, e.attr "aria-disabled" = some v ∧ jsToLower v = "true") ∨
     (∃ w ∈ ["disabled", "soldout", "locked", "unavailable"],
        w.data <:+: (jsToLower ((e.attr "class").getD "")).data) ∨
     (∃ v, e.attr "data-locked" = some v ∧ jsToLower v = "true"))

/-- Spec reading of the `saysAddToCart` flag: the text contains, at some
position, "add" + optional whitespace + "to" + optional whitespace +
"cart", matched case-insensitively. -/
def addToCartSpec (s : String) : Prop :=
  ∃ pre a w1 t w2 c suf,
    s.data = pre ++ a ++ w1 ++ t ++ w2 ++ c ++ suf ∧
    a.map Char.toLower = "add".data ∧
    t.map Char.toLower = "to".data ∧
    c.map Char.toLower = "cart".data ∧
    (∀ x ∈ w1, jsWs x = true) ∧ (∀ x ∈ w2, jsWs x = true)

/-- Spec reading of an address accepted by the e-mail regex: some text
before a single `@` (the three parts exclude `@`, so there is exactly one),
then a domain containing a `.` with nonempty text on both sides; no
whitespace anywhere (`atomChar` excludes whitespace and `@`). -/
def emailSpec (s : String) : Prop :=
  ∃ lpart p q,
    s.data = lpart ++ '@' :: (p ++ '.' :: q) ∧
    lpart ≠ [] ∧ p ≠ [] ∧ q ≠ [] ∧
    (∀ c ∈ lpart, atomChar c = true) ∧
    (∀ c ∈ p, atomChar c = true) ∧
    (∀ c ∈ q, atomChar c = true)

/-- An ASCII character: code point at most 127. -/
def isAsciiChar (c : Char) : Prop := c.toNat ≤ 127

/-- What claim C7 says the e-mail check requires: the shape above plus
"ASCII characters only". -/
def claimEmailSpec (s : String) : Prop :=
  emailSpec s ∧ ∀ c ∈ s.data, isAsciiChar c

/-! ## Concrete fixtures used by witnesses and counterexamples -/

/-- A concrete environment whose recipient address contains a non-ASCII
character. -/
def envNonAscii : Env :=
  { AWS_REGION := none, AWS_DEFAULT_REGION := none,
    TARGET_URL := some "https://example.com/item",
    TO_EMAIL := some "é@ab.cd", FROM_EMAIL := some "a@b.cd" }

/-- A sample validated configuration. -/
def cfgSample : ValidatedConfig :=
  { region := "us-east-1", targetUrl := "https://example.com/item",
    toEmail := "to@example.com", fromEmail := "from@example.com" }

/-- A second, distinct sample configuration. -/
def cfgSample2 : ValidatedConfig :=
  { region := "eu-west-1", targetUrl := "https://example.org/item",
    toEmail := "a@b.cd", fromEmail := "c@d.ef" }

/-- A parse collaborator that finds an enabled Add to Cart button. -/
def availableParse : String → Option Element :=
  fun _ =>
    some { textRaw := "Add to Cart", attrs := [], disabledPseudo := false }

/-- An environment with the target URL left unset. -/
def envMissingUrl : Env :=
  { AWS_REGION := none, AWS_DEFAULT_REGION := none, TARGET_URL := none,
    TO_EMAIL := some "a@b.cd", FROM_EMAIL := some "c@d.ef" }

/-- An environment whose region variables are empty and unset. -/
def envRegionEmpty : Env :=
  { AWS_REGION := some "", AWS_DEFAULT_REGION := none,
    TARGET_URL := some "https://example.com", TO_EMAIL := some "a@b.cd",
    FROM_EMAIL := some "c@d.ef" }

/-- An environment whose target URL is the empty string. -/
def envUrlEmpty : Env :=
  { AWS_REGION := none, AWS_DEFAULT_REGION := none, TARGET_URL := some "",
    TO_EMAIL := some "a@b.cd", FROM_EMAIL := some "c@d.ef" }

/-- An environment whose recipient address is the empty string. -/
def envToEmpty : Env :=
  { AWS_REGION := none, AWS_DEFAULT_REGION := none,
    TARGET_URL := some "https://example.com", TO_EMAIL := some "",
    FROM_EMAIL := some "c@d.ef" }

/-- An environment whose sender address is the empty string. -/
def envFromEmpty : Env :=
  { AWS_REGION := none, AWS_DEFAULT_REGION := none,
    TARGET_URL := some "https://example.com", TO_EMAIL := some "a@b.cd",
    FROM_EMAIL := some "" }

/-! ## Helper lemmas -/

theorem strContains_iff (s pat : String) :
    strContains s pat = true ↔ pat.data <:+: s.data :=
  decide_eq_true_iff

theorem jsWs_iff (c : Char) : jsWs c = true ↔ c ∈ jsWsChars :=
  decide_eq_true_iff

/-- Whitespace characters never case-fold to a letter of the pattern. -/
theorem jsWs_toLower_not_letter (c : Char) (h : jsWs c = true) :
    c.toLower ≠ 't' ∧ c.toLower ≠ 'c' := by
  have hmem : c ∈ jsWsChars := (jsWs_iff c).mp h
  have hall : ∀ x ∈ jsWsChars, x.toLower ≠ 't' ∧ x.toLower ≠ 'c' := by decide
  exact hall c hmem

theorem stripCI_eq_some_iff (pat : List Char) :
    ∀ cs r, stripCI pat cs = some r ↔
      ∃ a, cs = a ++ r ∧ a.map Char.toLower = pat := by
  induction pat with
  | nil =>
    intro cs r
    constructor
    · intro h
      refine ⟨[], ?_, rfl⟩
      simpa [stripCI] using h
    · rintro ⟨a, rfl, ha⟩
      have : a = [] := List.map_eq_nil_iff.mp ha
      subst this
      simp [stripCI]
  | cons p ps ih =>
    intro cs r
    cases cs with
    | nil =>
      constructor
      · intro h; simp [stripCI] at h
      · rintro ⟨a, h, ha⟩
        cases a with
        | nil => simp at ha
        | cons x a' => simp at h
    | cons c cs' =>
      by_cases hc : c.toLower = p
      · rw [show stripCI (p :: ps) (c :: cs') = stripCI ps cs' by
          simp [stripCI, hc]]
        rw [ih cs' r]
        constructor
        · rintro ⟨a, rfl, ha⟩
          exact ⟨c :: a, by simp, by simp [ha, hc]⟩
        · rintro ⟨a, h, ha⟩
          cases a with
          | nil => simp at ha
          | cons x a' =>
            simp at ha h
            obtain ⟨hx, ha'⟩ := ha
            obtain ⟨hcx, hcs⟩ := h
            exact ⟨a', hcs, ha'⟩
      · rw [show stripCI (p :: ps) (c :: cs') = none by simp [stripCI, hc]]
        constructor
        · intro h; simp at h
        · rintro ⟨a, h, ha⟩
          cases a with
          | nil => simp at ha
          | cons x a' =>
            simp at ha h
            exact absurd (h.1 ▸ ha.1) hc

theorem dropWs_decomp (cs : List Char) :
    ∃ w, cs = w ++ dropWs cs ∧ ∀ c ∈ w, jsWs c = true := by
  induction cs with
  | nil => exact ⟨[], rfl, by simp⟩
  | cons c cs ih =>
    by_cases h : jsWs c = true
    · obtain ⟨w, hw, hall⟩ := ih
      refine ⟨c :: w, ?_, ?_⟩
      · simp only [dropWs, h, if_true, List.cons_append]
        exact congrArg (c :: ·) hw
      · intro x hx
        rcases List.mem_cons.mp hx with rfl | hx
        · exact h
        · exact hall x hx
    · refine ⟨[], ?_, by simp⟩
      simp [dropWs, h]

theorem dropWs_append_ws (w l : List Char) (h : ∀ c ∈ w, jsWs c = true) :
    dropWs (w ++ l) = dropWs l := by
  induction w with
  | nil => rfl
  | cons c w ih =>
    have hc : jsWs c = true := h c (by simp)
    simp only [List.cons_append, dropWs, hc, if_true]
    exact ih (fun x hx => h x (by simp [hx]))

theorem dropWs_cons_of_not_ws (c : Char) (l : List Char)
    (h : jsWs c = false) : dropWs (c :: l) = c :: l := by
  simp [dropWs, h]

/-- A match of `add\s*to\s*cart` starts at the head of `cs` exactly when
`cs` decomposes as the pattern followed by anything. -/
theorem matchAddToCartHere_iff (cs : List Char) :
    matchAddToCartHere cs = true ↔
    ∃ a w1 t w2 c rest, cs = a ++ w1 ++ t ++ w2 ++ c ++ rest ∧
      a.map Char.toLower = "add".data ∧ t.map Char.toLower = "to".data ∧
      c.map Char.toLower = "cart".data ∧
      (∀ x ∈ w1, jsWs x = true) ∧ (∀ x ∈ w2, jsWs x = true) := by
  constructor
  · intro h
    unfold matchAddToCartHere at h
    cases h1 : stripCI ['a', 'd', 'd'] cs with
    | none => simp only [h1] at h; exact absurd h Bool.false_ne_true
    | some r1 =>
      simp only [h1] at h
      cases h2 : stripCI ['t', 'o'] (dropWs r1) with
      | none => simp only [h2] at h; exact absurd h Bool.false_ne_true
      | some r2 =>
        simp only [h2, Option.isSome_iff_exists] at h
        obtain ⟨rest, h3⟩ := h
        obtain ⟨a, hcs1, ha⟩ := (stripCI_eq_some_iff _ _ _).mp h1
        obtain ⟨w1, hw1, hall1⟩ := dropWs_decomp r1
        obtain ⟨t, hd1, ht⟩ := (stripCI_eq_some_iff _ _ _).mp h2
        obtain ⟨w2, hw2, hall2⟩ := dropWs_decomp r2
        obtain ⟨c, hd2, hc⟩ := (stripCI_eq_some_iff _ _ _).mp h3
        refine ⟨a, w1, t, w2, c, rest, ?_, ha, ht, hc, hall1, hall2⟩
        rw [hcs1, hw1, hd1, hw2, hd2]
        simp [List.append_assoc]
  · rintro ⟨a, w1, t, w2, c, rest, hcs, ha, ht, hc, hall1, hall2⟩
    have h1 : stripCI ['a', 'd', 'd'] cs =
        some (w1 ++ (t ++ (w2 ++ (c ++ rest)))) := by
      refine (stripCI_eq_some_iff _ _ _).mpr ⟨a, ?_, ha⟩
      rw [hcs]; simp [List.append_assoc]
    obtain ⟨x, t', rfl⟩ : ∃ x t', t = x :: t' := by
      cases t with
      | nil => simp at ht
      | cons x t' => exact ⟨x, t', rfl⟩
    have hxt : x.toLower = 't' ∧ t'.map Char.toLower = ['o'] := by
      simpa using ht
    have hxws : jsWs x = false := by
      by_contra hcon
      have := jsWs_toLower_not_letter x (by
        cases hjw : jsWs x
        · exact absurd hjw hcon
        · rfl)
      exact this.1 hxt.1
    have hdrop1 : dropWs (w1 ++ (x :: t' ++ (w2 ++ (c ++ rest)))) =
        x :: (t' ++ (w2 ++ (c ++ rest))) := by
      rw [dropWs_append_ws w1 _ hall1]
      simp only [List.cons_append]
      exact dropWs_cons_of_not_ws _ _ hxws
    have h2 : stripCI ['t', 'o'] (x :: (t' ++ (w2 ++ (c ++ rest)))) =
        some (w2 ++ (c ++ rest)) := by
      refine (stripCI_eq_some_iff _ _ _).mpr ⟨x :: t', by simp, ?_⟩
      simp [hxt.1, hxt.2]
    obtain ⟨y, c', rfl⟩ : ∃ y c', c = y :: c' := by
      cases c with
      | nil => simp at hc
      | cons y c' => exact ⟨y, c', rfl⟩
    have hyc : y.toLower = 'c' ∧ c'.map Char.toLower = ['a', 'r', 't'] := by
      simpa using hc
    have hyws : jsWs y = false := by
      by_contra hcon
      have := jsWs_toLower_not_letter y (by
        cases hjw : jsWs y
        · exact absurd hjw hcon
        · rfl)
      exact this.2 hyc.1
    have hdrop2 : dropWs (w2 ++ (y :: c' ++ rest)) = y :: (c' ++ rest) := by
      rw [dropWs_append_ws w2 _ hall2]
      simp only [List.cons_append]
      exact dropWs_cons_of_not_ws _ _ hyws
    have h3 : stripCI ['c', 'a', 'r', 't'] (y :: (c' ++ rest)) =
        some rest := by
      refine (stripCI_eq_some_iff _ _ _).mpr ⟨y :: c', by simp, ?_⟩
      simp [hyc.1, hyc.2]
    unfold matchAddToCartHere
    simp only [h1, hdrop1, h2, hdrop2, h3, Option.isSome_some]

/-- The `saysAddToCart` regex test holds exactly on texts containing the
"add to cart" pattern somewhere. -/
theorem regexTestAddToCart_iff (s : String) :
    regexTestAddToCart s = true ↔ addToCartSpec s := by
  unfold regexTestAddToCart addToCartSpec
  rw [List.any_eq_true]
  constructor
  · rintro ⟨l, hl, hm⟩
    rw [List.mem_tails] at hl
    obtain ⟨pre, hpre⟩ := hl
    obtain ⟨a, w1, t, w2, c, rest, hdec, ha, ht, hc, hall1, hall2⟩ :=
      (matchAddToCartHere_iff l).mp hm
    refine ⟨pre, a, w1, t, w2, c, rest, ?_, ha, ht, hc, hall1, hall2⟩
    rw [← hpre, hdec]
    simp [List.append_assoc]
  · rintro ⟨pre, a, w1, t, w2, c, suf, hs, ha, ht, hc, hall1, hall2⟩
    refine ⟨a ++ w1 ++ t ++ w2 ++ c ++ suf, ?_, ?_⟩
    · rw [List.mem_tails]
      exact ⟨pre, by rw [hs]; simp [List.append_assoc]⟩
    · exact (matchAddToCartHere_iff _).mpr
        ⟨a, w1, t, w2, c, suf, rfl, ha, ht, hc, hall1, hall2⟩

theorem splitAtFirstAt_eq_none_iff (cs : List Char) :
    splitAtFirstAt cs = none ↔ '@' ∉ cs := by
  induction cs with
  | nil => simp [splitAtFirstAt]
  | cons c cs ih =>
    by_cases hc : c = '@'
    · subst hc; simp [splitAtFirstAt]
    · simp only [splitAtFirstAt, hc, if_false, List.mem_cons]
      cases h : splitAtFirstAt cs with
      | none =>
        have hnot := ih.mp h
        simp only [h]
        simp [Ne.symm hc, hnot]
      | some p =>
        have hmem : '@' ∈ cs := by
          by_contra hnot
          have hnone := ih.mpr hnot
          rw [hnone] at h
          exact Option.noConfusion h
        simp only [h]
        obtain ⟨l0, r0⟩ := p
        simp [hmem]

theorem splitAtFirstAt_eq_some_iff (cs : List Char) :
    ∀ l r, splitAtFirstAt cs = some (l, r) ↔
      (cs = l ++ '@' :: r ∧ '@' ∉ l) := by
  induction cs with
  | nil =>
    intro l r
    constructor
    · intro h; simp [splitAtFirstAt] at h
    · rintro ⟨h, _⟩; simp at h
  | cons c cs ih =>
    intro l r
    by_cases hc : c = '@'
    · subst hc
      simp only [splitAtFirstAt, if_true]
      constructor
      · intro h
        simp only [Option.some_inj, Prod.mk.injEq] at h
        obtain ⟨rfl, rfl⟩ := h
        simp
      · rintro ⟨h, hnl⟩
        cases l with
        | nil => simp at h; simp [h]
        | cons x l' =>
          simp only [List.cons_append, List.cons.injEq] at h
          exact absurd (h.1 ▸ List.mem_cons_self x l') (h.1 ▸ hnl)
    · simp only [splitAtFirstAt, hc, if_false]
      cases h : splitAtFirstAt cs with
      | none =>
        simp only [Option.some_inj]
        constructor
        · intro hcon; simp at hcon
        · rintro ⟨hdec, hnl⟩
          cases l with
          | nil =>
            simp only [List.nil_append, List.cons.injEq] at hdec
            exact absurd hdec.1 hc
          | cons x l' =>
            simp only [List.cons_append, List.cons.injEq] at hdec
            have hmem : '@' ∈ cs := by
              rw [hdec.2]
              simp
            exact absurd hmem ((splitAtFirstAt_eq_none_iff cs).mp h)
      | some p =>
        obtain ⟨l0, r0⟩ := p
        have hsplit := (ih l0 r0).mp h
        constructor
        · intro heq
          simp only [Option.some_inj, Prod.mk.injEq] at heq
          obtain ⟨rfl, rfl⟩ := heq
          refine ⟨by rw [hsplit.1]; rfl, ?_⟩
          intro hmem
          rcases List.mem_cons.mp hmem with h1 | h1
          · exact hc h1.symm
          · exact hsplit.2 h1
        · rintro ⟨hdec, hnl⟩
          cases l with
          | nil =>
            simp only [List.nil_append, List.cons.injEq] at hdec
            exact absurd hdec.1 hc
          | cons x l' =>
            simp only [List.cons_append, List.cons.injEq] at hdec
            obtain ⟨rfl, hdec2⟩ := hdec
            have hnl' : '@' ∉ l' := fun hm => hnl (List.mem_cons_of_mem _ hm)
            have := (ih l' r).mpr ⟨hdec2, hnl'⟩
            rw [this] at h
            simp only [Option.some_inj, Prod.mk.injEq] at h
            obtain ⟨rfl, rfl⟩ := h
            rfl

theorem atomChar_ne_at {c : Char} (h : atomChar c = true) : c ≠ '@' := by
  intro hcon
  subst hcon
  simp [atomChar] at h

theorem atomChar_dot : atomChar '.' = true := by decide

/-- The e-mail regex accepts exactly the addresses described by
`emailSpec`. -/
theorem emailRegexTest_iff (s : String) :
    emailRegexTest s = true ↔ emailSpec s := by
  unfold emailRegexTest
  cases h : splitAtFirstAt s.data with
  | none =>
    simp only [h]
    constructor
    · intro hcon; exact absurd hcon Bool.false_ne_true
    · rintro ⟨lpart, p, q, hdec, _, _, _, _, _, _⟩
      exfalso
      have hmem : '@' ∈ s.data := by rw [hdec]; simp
      exact absurd hmem ((splitAtFirstAt_eq_none_iff _).mp h)
  | some pr =>
    obtain ⟨lpart, rest⟩ := pr
    obtain ⟨hdec, _⟩ := (splitAtFirstAt_eq_some_iff _ _ _).mp h
    simp only [h, Bool.and_eq_true]
    constructor
    · rintro ⟨⟨⟨hne, hlall⟩, hrall⟩, hdot⟩
      have hlne : lpart ≠ [] := by
        cases lpart with
        | nil => simp at hne
        | cons _ _ => simp
      have hdotm : '.' ∈ (rest.drop 1).dropLast := by
        simpa [List.contains] using hdot
      have hrestall : ∀ c ∈ rest, atomChar c = true := List.all_eq_true.mp hrall
      cases rest with
      | nil => simp at hdotm
      | cons rh rest' =>
        simp only [List.drop_succ_cons, List.drop_zero] at hdotm
        have hrne : rest' ≠ [] := by
          intro hnil; rw [hnil] at hdotm; simp at hdotm
        obtain ⟨s1, t1, hs1⟩ := List.append_of_mem hdotm
        obtain ⟨z, hrest'⟩ : ∃ z, rest' = (s1 ++ '.' :: t1) ++ [z] := by
          refine ⟨rest'.getLast hrne, ?_⟩
          conv_lhs => rw [← List.dropLast_append_getLast hrne]
          rw [hs1]
        refine ⟨lpart, rh :: s1, t1 ++ [z], ?_, hlne,
          by simp, by simp, List.all_eq_true.mp hlall, ?_, ?_⟩
        · rw [hdec]
          congr 2
          rw [hrest']
          simp [List.append_assoc]
        · intro c hc
          rcases List.mem_cons.mp hc with rfl | hc
          · exact hrestall c (by simp)
          · have : c ∈ rest' := by
              rw [hrest']; simp [hc]
            exact hrestall c (by simp [this])
        · intro c hc
          have : c ∈ rest' := by
            rw [hrest']
            rcases List.mem_append.mp hc with hc | hc
            · simp [hc]
            · simp at hc; simp [hc]
          exact hrestall c (by simp [this])
    · rintro ⟨lpart', p, q, hdec', hl, hp, hq, hal, hap, haq⟩
      have hnotat : '@' ∉ lpart' := fun hm => atomChar_ne_at (hal _ hm) rfl
      have hsplit2 : splitAtFirstAt s.data = some (lpart', p ++ '.' :: q) :=
        (splitAtFirstAt_eq_some_iff _ _ _).mpr ⟨hdec', hnotat⟩
      rw [h] at hsplit2
      simp only [Option.some_inj, Prod.mk.injEq] at hsplit2
      obtain ⟨rfl, rfl⟩ := hsplit2
      refine ⟨⟨⟨?_, ?_⟩, ?_⟩, ?_⟩
      · cases lpart with
        | nil => exact absurd rfl hl
        | cons _ _ => simp
      · exact List.all_eq_true.mpr hal
      · refine List.all_eq_true.mpr ?_
        intro c hc
        rcases List.mem_append.mp hc with hc | hc
        · exact hap c hc
        · rcases List.mem_cons.mp hc with rfl | hc
          · exact atomChar_dot
          · exact haq c hc
      · obtain ⟨ph, p', rfl⟩ : ∃ ph p', p = ph :: p' := by
          cases p with
          | nil => exact absurd rfl hp
          | cons ph p' => exact ⟨ph, p', rfl⟩
        obtain ⟨z, q0, hz⟩ : ∃ z q0, q = q0 ++ [z] := by
          refine ⟨q.getLast hq, q.dropLast, ?_⟩
          rw [List.dropLast_append_getLast hq]
        rw [hz]
        simp only [List.cons_append, List.drop_succ_cons, List.drop_zero]
        rw [show p' ++ '.' :: (q0 ++ [z]) = (p' ++ '.' :: q0) ++ [z] by
          simp [List.append_assoc]]
        rw [List.dropLast_concat]
        simp [List.contains]

/-- The `(attr || "").toLowerCase() === "true"` idiom holds exactly when the
attribute is present with a value that lowercases to "true". -/
theorem lowerEqTrue_iff (o : Option String) :
    (jsToLower (o.getD "") == "true") = true ↔
      ∃ v, o = some v ∧ jsToLower v = "true" := by
  cases o with
  | none =>
    simp only [Option.getD_none]
    constructor
    · intro h
      exact absurd (beq_iff_eq.mp h) (by decide)
    · rintro ⟨v, hv, _⟩
      exact Option.noConfusion hv
  | some v => simp [beq_iff_eq]

/-! ## Claim theorems -/

/-- C2: for every located target element, the `locked` flag is true exactly
when the element is absent, or a disabled attribute or pseudo-state is
present, or `aria-disabled` equals "true" case-insensitively, or the class
attribute contains one of the substrings "disabled", "soldout", "locked",
"unavailable" case-insensitively (substring, not exact token), or
`data-locked` equals "true" case-insensitively. -/
theorem isElementLocked_iff_lockedSpec (el : Option Element) :
    isElementLocked el = true ↔ lockedSpec el := by
  cases el with
  | none => simp [isElementLocked, lockedSpec]
  | some e =>
    simp only [isElementLocked, lockedSpec, Bool.or_eq_true,
      Option.isSome_iff_exists, lowerEqTrue_iff, List.any_eq_true,
      strContains_iff]
    simp [or_assoc]

/-- C3: the `saysAddToCart` flag is the case-insensitive regex test of the
trimmed element text against "add" + optional whitespace + "to" + optional
whitespace + "cart"; the regex test holds exactly on texts containing that
pattern, and the sample texts behave as the claim lists. -/
theorem saysAddToCart_spec :
    (∀ el, (evaluate el).saysAddToCart = regexTestAddToCart (evaluate el).text) ∧
    (∀ s, regexTestAddToCart s = true ↔ addToCartSpec s) ∧
    (evaluate (some ⟨"Add to Cart", [], false⟩)).saysAddToCart = true ∧
    (evaluate (some ⟨"ADD  TO CART", [], false⟩)).saysAddToCart = true ∧
    (evaluate (some ⟨"addtocart", [], false⟩)).saysAddToCart = true ∧
    (evaluate (some ⟨"Out of stock", [], false⟩)).saysAddToCart = false := by
  refine ⟨?_, regexTestAddToCart_iff, by decide, by decide, by decide,
    by decide⟩
  intro el
  cases el <;> rfl

/-- C4: when no element with identifier "add" is found, the evaluator
reports exists = false, text = "", saysAddToCart = false and locked = true:
absence is unavailability, never an unknown state. -/
theorem evaluate_absent_element :
    evaluate none =
      { «exists» := false, text := "", saysAddToCart := false,
        locked := true } := by
  rfl

/-- C1: when the fetch completes with ok status and a non-empty body, the
stock-available e-mail is attempted iff exists AND saysAddToCart AND NOT
locked; in every other flag combination the handler returns Success with
notified = false and no e-mail attempt; and when the attempt itself fails
(emailOk = false) the handler still returns the Success variant with
notified = false. -/
theorem handler_notify_decision (cfg : ValidatedConfig)
    (parse : String → Option Element) (status : Nat)
    (statusText body : String) (emailOk : Bool)
    (hbody : (jsTrim body).isEmpty = false) :
    ((handler cfg parse (.completed true status statusText body) emailOk).2 =
        [⟨stockSubject⟩] ↔
      ((evaluate (parse body)).«exists» &&
        (evaluate (parse body)).saysAddToCart &&
        !(evaluate (parse body)).locked) = true) ∧
    (((evaluate (parse body)).«exists» &&
        (evaluate (parse body)).saysAddToCart &&
        !(evaluate (parse body)).locked) = false →
      handler cfg parse (.completed true status statusText body) emailOk =
        (.success false (evaluate (parse body)), [])) ∧
    (((evaluate (parse body)).«exists» &&
        (evaluate (parse body)).saysAddToCart &&
        !(evaluate (parse body)).locked) = true →
      (handler cfg parse (.completed true status statusText body) emailOk).1 =
        .success emailOk (evaluate (parse body))) := by
  by_cases hcond : ((evaluate (parse body)).«exists» &&
      (evaluate (parse body)).saysAddToCart &&
      !(evaluate (parse body)).locked) = true
  · cases emailOk <;> simp [handler, hbody, hcond]
  · rw [Bool.not_eq_true] at hcond
    simp [handler, hbody, hcond]

/-- C5: a completed fetch with a non-ok status always yields the
FetchFailure variant whose message embeds the numeric status, the status
text and the target URL; when the status is at least 500 exactly one
error-notification e-mail with the server-error subject is attempted, and
the response does not depend on whether that e-mail attempt succeeds. -/
theorem handler_http_failure (cfg : ValidatedConfig)
    (parse : String → Option Element) (status : Nat)
    (statusText body : String) (emailOk : Bool) :
    handler cfg parse (.completed false status statusText body) emailOk =
      (.fetchFail (httpFailMessage status statusText cfg.targetUrl),
       if status ≥ 500 then [⟨serverErrorSubject⟩] else []) ∧
    strContains (httpFailMessage status statusText cfg.targetUrl)
      (toString status) = true ∧
    strContains (httpFailMessage status statusText cfg.targetUrl)
      statusText = true ∧
    strContains (httpFailMessage status statusText cfg.targetUrl)
      cfg.targetUrl = true := by
  refine ⟨?_, ?_, ?_, ?_⟩
  · by_cases h5 : status ≥ 500 <;> simp [handler, h5]
  · refine (strContains_iff _ _).mpr
      ⟨"HTTP ".data,
       (" " ++ statusText ++ " when fetching " ++ cfg.targetUrl).data, ?_⟩
    simp [httpFailMessage, String.data_append, List.append_assoc]
  · refine (strContains_iff _ _).mpr
      ⟨("HTTP " ++ toString status ++ " ").data,
       (" when fetching " ++ cfg.targetUrl).data, ?_⟩
    simp [httpFailMessage, String.data_append, List.append_assoc]
  · refine (strContains_iff _ _).mpr
      ⟨("HTTP " ++ toString status ++ " " ++ statusText ++
         " when fetching ").data, [], ?_⟩
    simp [httpFailMessage, String.data_append, List.append_assoc]

/-- C6: a completed fetch with ok status but an empty or whitespace-only
body yields the FetchFailure variant with the exact empty-body message, and
no e-mail is attempted on this path. -/
theorem handler_empty_body (cfg : ValidatedConfig)
    (parse : String → Option Element) (status : Nat)
    (statusText body : String) (emailOk : Bool)
    (h : (jsTrim body).isEmpty = true) :
    handler cfg parse (.completed true status statusText body) emailOk =
      (.fetchFail emptyBodyMessage, []) ∧
    emptyBodyMessage = "Received empty response from target URL" := by
  exact ⟨by simp [handler, h], rfl⟩

/-- C8: every invocation produces exactly one of the three response
variants, and a thrown fetch (network error, timeout abort, or any other
exception) is converted to the RuntimeFailure shape carrying the thrown
message, with exactly one best-effort error e-mail attempt whose own
failure does not change the response (the output does not depend on
emailOk). -/
theorem handler_response_taxonomy (cfg : ValidatedConfig)
    (parse : String → Option Element) (fetchResult : FetchResult)
    (emailOk : Bool) :
    ((∃ n r, (handler cfg parse fetchResult emailOk).1 =
        .success n r) ∨
     (∃ m, (handler cfg parse fetchResult emailOk).1 = .fetchFail m) ∨
     (∃ e, (handler cfg parse fetchResult emailOk).1 = .runtimeFail e)) ∧
    (∀ message isAbort,
      handler cfg parse (.thrown message isAbort) emailOk =
        (.runtimeFail message,
         [⟨if isAbort then timeoutSubject else systemErrorSubject⟩])) := by
  constructor
  · cases hres : (handler cfg parse fetchResult emailOk).1 with
    | success n r => exact Or.inl ⟨n, r, rfl⟩
    | fetchFail m => exact Or.inr (Or.inl ⟨m, rfl⟩)
    | runtimeFail e => exact Or.inr (Or.inr ⟨e, rfl⟩)
  · intro message isAbort
    rfl

/-- On the ok, non-empty-body path the Success variant always carries
exactly the evaluator output for the fetched body. -/
theorem resultOf_handler_ok (cfg : ValidatedConfig)
    (parse : String → Option Element) (status : Nat)
    (statusText body : String) (emailOk : Bool)
    (h : (jsTrim body).isEmpty = false) :
    resultOf (handler cfg parse (.completed true status statusText body)
        emailOk).1 = some (evaluate (parse body)) := by
  by_cases hcond : ((evaluate (parse body)).«exists» &&
      (evaluate (parse body)).saysAddToCart &&
      !(evaluate (parse body)).locked) = true
  · cases emailOk <;> simp [handler, h, hcond, resultOf]
  · rw [Bool.not_eq_true] at hcond
    simp [handler, h, hcond, resultOf]

/-- C9: the evaluator is a pure function of the markup: two invocations on
the same body, under any configurations, status fields and e-mail
outcomes, produce the same CheckResult, namely the evaluator output. -/
theorem evaluator_deterministic (cfg₁ cfg₂ : ValidatedConfig)
    (parse : String → Option Element) (body : String)
    (status₁ status₂ : Nat) (statusText₁ statusText₂ : String)
    (emailOk₁ emailOk₂ : Bool) :
    resultOf (handler cfg₁ parse (.completed true status₁ statusText₁ body)
        emailOk₁).1 =
      resultOf (handler cfg₂ parse (.completed true status₂ statusText₂ body)
        emailOk₂).1 ∧
    ((jsTrim body).isEmpty = false →
      resultOf (handler cfg₁ parse (.completed true status₁ statusText₁ body)
          emailOk₁).1 = some (evaluate (parse body))) := by
  constructor
  · cases hbe : (jsTrim body).isEmpty
    · rw [resultOf_handler_ok cfg₁ parse status₁ statusText₁ body emailOk₁ hbe,
        resultOf_handler_ok cfg₂ parse status₂ statusText₂ body emailOk₂ hbe]
    · simp [handler, hbe, resultOf]
  · intro h
    exact resultOf_handler_ok cfg₁ parse status₁ statusText₁ body emailOk₁ h

/-- C7 (amended): validation fails exactly when the target URL is missing
or rejected by the URL check, either e-mail address is missing, or either
address falls outside the regex language characterized by `emailSpec`
(nonempty local part, a single "@", at least one "." with nonempty text on
both sides after the "@", no whitespace — non-ASCII characters are
permitted); when every check passes the returned configuration carries the
four values unchanged. -/
theorem validateEnvironment_spec (u : String → Bool) (env : Env) :
    ((∃ m, validateEnvironment u env = .error m) ↔
      (envFalsy env.TARGET_URL = true ∨ envFalsy env.TO_EMAIL = true ∨
       envFalsy env.FROM_EMAIL = true ∨
       u (env.TARGET_URL.getD "") = false ∨
       ¬ emailSpec (env.TO_EMAIL.getD "") ∨
       ¬ emailSpec (env.FROM_EMAIL.getD ""))) ∧
    (∀ cfg, validateEnvironment u env = .ok cfg →
      cfg = { region := regionOf env,
              targetUrl := env.TARGET_URL.getD "",
              toEmail := env.TO_EMAIL.getD "",
              fromEmail := env.FROM_EMAIL.getD "" }) := by
  by_cases h1 : envFalsy env.TARGET_URL = true
  · simp [validateEnvironment, h1]
  · rw [Bool.not_eq_true] at h1
    by_cases h2 : envFalsy env.TO_EMAIL = true
    · simp [validateEnvironment, h1, h2]
    · rw [Bool.not_eq_true] at h2
      by_cases h3 : envFalsy env.FROM_EMAIL = true
      · simp [validateEnvironment, h1, h2, h3]
      · rw [Bool.not_eq_true] at h3
        by_cases h4 : u (env.TARGET_URL.getD "") = false
        · simp [validateEnvironment, h1, h2, h3, h4]
        · rw [Bool.not_eq_false] at h4
          by_cases h5 : emailRegexTest (env.TO_EMAIL.getD "") = false
          · have hns : ¬ emailSpec (env.TO_EMAIL.getD "") := by
              rw [← emailRegexTest_iff]
              simp [h5]
            simp [validateEnvironment, h1, h2, h3, h4, h5, hns]
          · rw [Bool.not_eq_false] at h5
            have hs : emailSpec (env.TO_EMAIL.getD "") :=
              (emailRegexTest_iff _).mp h5
            by_cases h6 : emailRegexTest (env.FROM_EMAIL.getD "") = false
            · have hns : ¬ emailSpec (env.FROM_EMAIL.getD "") := by
                rw [← emailRegexTest_iff]
                simp [h6]
              simp [validateEnvironment, h1, h2, h3, h4, h5, h6, hns]
            · rw [Bool.not_eq_false] at h6
              have hs2 : emailSpec (env.FROM_EMAIL.getD "") :=
                (emailRegexTest_iff _).mp h6
              simp [validateEnvironment, h1, h2, h3, h4, h5, h6, hs, hs2]

/-- C7 counterexample: the claim says the e-mail regex check requires
"ASCII characters only", but the code accepts an address with a non-ASCII
local part: "é@ab.cd" fails the claimed ASCII requirement yet validation
returns the configuration instead of throwing. -/
theorem validateEnvironment_accepts_non_ascii :
    ¬ claimEmailSpec "é@ab.cd" ∧
    validateEnvironment (fun _ => true) envNonAscii =
      .ok { region := "us-east-1", targetUrl := "https://example.com/item",
            toEmail := "é@ab.cd", fromEmail := "a@b.cd" } := by
  constructor
  · rintro ⟨_, hascii⟩
    have hmem : 'é' ∈ "é@ab.cd".data := by decide
    have hc := hascii _ hmem
    unfold isAsciiChar at hc
    exact absurd hc (by decide)
  · rfl

/-- C10: an empty-string environment value behaves like an absent one: if
both region variables are unset or empty the region is "us-east-1", and an
empty TARGET_URL, TO_EMAIL or FROM_EMAIL produces the corresponding
required-variable error, not a URL-syntax or e-mail-format error. -/
theorem env_empty_treated_as_absent (u : String → Bool) (env : Env) :
    (envFalsy env.AWS_REGION = true → envFalsy env.AWS_DEFAULT_REGION = true →
      regionOf env = "us-east-1") ∧
    (env.TARGET_URL = some "" →
      validateEnvironment u env =
        .error "TARGET_URL environment variable is required") ∧
    (envFalsy env.TARGET_URL = false → env.TO_EMAIL = some "" →
      validateEnvironment u env =
        .error "TO_EMAIL and FROM_EMAIL environment variables are required") ∧
    (envFalsy env.TARGET_URL = false → env.FROM_EMAIL = some "" →
      validateEnvironment u env =
        .error "TO_EMAIL and FROM_EMAIL environment variables are required") := by
  refine ⟨?_, ?_, ?_, ?_⟩
  · intro hr1 hr2
    simp [regionOf, hr1, hr2]
  · intro h
    have h' : envFalsy env.TARGET_URL = true := by rw [h]; decide
    simp [validateEnvironment, h']
  · intro h1 h2
    have h2' : envFalsy env.TO_EMAIL = true := by rw [h2]; decide
    simp [validateEnvironment, h1, h2']
  · intro h1 h2
    have h2' : envFalsy env.FROM_EMAIL = true := by rw [h2]; decide
    simp [validateEnvironment, h1, h2']

/-! ## Witnesses -/

/-- Witness for C1 at a concrete configuration, parse result and body. -/
theorem handler_notify_decision_witness :
    (jsTrim "markup").isEmpty = false ∧
    (((handler cfgSample availableParse (.completed true 200 "OK" "markup")
        true).2 = [⟨stockSubject⟩] ↔
      ((evaluate (availableParse "markup")).«exists» &&
        (evaluate (availableParse "markup")).saysAddToCart &&
        !(evaluate (availableParse "markup")).locked) = true) ∧
     (((evaluate (availableParse "markup")).«exists» &&
        (evaluate (availableParse "markup")).saysAddToCart &&
        !(evaluate (availableParse "markup")).locked) = false →
      handler cfgSample availableParse (.completed true 200 "OK" "markup")
          true =
        (.success false (evaluate (availableParse "markup")), [])) ∧
     (((evaluate (availableParse "markup")).«exists» &&
        (evaluate (availableParse "markup")).saysAddToCart &&
        !(evaluate (availableParse "markup")).locked) = true →
      (handler cfgSample availableParse (.completed true 200 "OK" "markup")
          true).1 =
        .success true (evaluate (availableParse "markup")))) :=
  ⟨by decide,
   handler_notify_decision cfgSample availableParse 200 "OK" "markup" true
     (by decide)⟩

/-- Witness for C6 at a whitespace-only body. -/
theorem handler_empty_body_witness :
    (jsTrim "  ").isEmpty = true ∧
    (handler cfgSample availableParse (.completed true 200 "OK" "  ") true =
       (.fetchFail emptyBodyMessage, []) ∧
     emptyBodyMessage = "Received empty response from target URL") :=
  ⟨by decide,
   handler_empty_body cfgSample availableParse 200 "OK" "  " true (by decide)⟩

/-- Witness for C7 (amended): a missing target URL is rejected. -/
theorem validateEnvironment_spec_witness :
    ∃ m, validateEnvironment (fun _ => true) envMissingUrl = .error m :=
  (validateEnvironment_spec (fun _ => true) envMissingUrl).1.mpr
    (Or.inl (by decide))

/-- Witness for C9 at two different configurations and e-mail outcomes. -/
theorem evaluator_deterministic_witness :
    resultOf (handler cfgSample availableParse
        (.completed true 200 "OK" "m") true).1 =
      resultOf (handler cfgSample2 availableParse
        (.completed true 503 "Bad" "m") false).1 ∧
    resultOf (handler cfgSample availableParse
        (.completed true 200 "OK" "m") true).1 =
      some (evaluate (availableParse "m")) :=
  ⟨(evaluator_deterministic cfgSample cfgSample2 availableParse "m" 200 503
      "OK" "Bad" true false).1,
   (evaluator_deterministic cfgSample cfgSample2 availableParse "m" 200 503
      "OK" "Bad" true false).2 (by decide)⟩

/-- Witness for C10 at concrete empty-string environments. -/
theorem env_empty_treated_as_absent_witness :
    regionOf envRegionEmpty = "us-east-1" ∧
    validateEnvironment (fun _ => true) envUrlEmpty =
      .error "TARGET_URL environment variable is required" ∧
    validateEnvironment (fun _ => true) envToEmpty =
      .error "TO_EMAIL and FROM_EMAIL environment variables are required" ∧
    validateEnvironment (fun _ => true) envFromEmpty =
      .error "TO_EMAIL and FROM_EMAIL environment variables are required" :=
  ⟨(env_empty_treated_as_absent (fun _ => true) envRegionEmpty).1
     (by decide) (by decide),
   (env_empty_treated_as_absent (fun _ => true) envUrlEmpty).2.1 rfl,
   (env_empty_treated_as_absent (fun _ => true) envToEmpty).2.2.1
     (by decide) rfl,
   (env_empty_treated_as_absent (fun _ => true) envFromEmpty).2.2.2
     (by decide) rfl⟩

end StockCheck
